import Mathlib

/-!
Verification of the VV-maps multimodal routing engine.

The Go sources are shallowly embedded: float64 quantities become exact
rationals (`ℚ`), Go maps become lookup functions or association lists with
the zero-value-on-missing-key read semantics of Go maps, and `math.Inf(1)`
together with finite costs becomes the two-constructor type `FCost`.
The priority queue of `container/heap` is modelled as a multiset of items
from which a minimum-cost item is extracted; ties between equal costs are
resolved by list order, the nondeterminism the spec explicitly accepts.
-/

namespace VVMaps

-- The Batteries rational-number operations are sealed against unfolding,
-- which would block kernel evaluation of concrete routing runs; reopen them
-- for this development.
attribute [local semireducible] Rat.mul Rat.add Rat.sub Rat.inv

/-- model.Point: a WGS84 latitude/longitude pair. -/
structure Point where
  Lat : ℚ
  Lng : ℚ
deriving DecidableEq

/-- model.Node. The Go field `Type` is named `Typ` because `Type` is a Lean
keyword. -/
structure Node where
  ID : String
  Name : String
  Lat : ℚ
  Lng : ℚ
  Typ : String
deriving DecidableEq

/-- model.Edge, including the derived `ModeMask` field. -/
structure Edge where
  From : String
  To : String
  Dist : ℚ
  Modes : List String
  LineID : String
  Desc : String
  ModeMask : Nat
deriving DecidableEq

/-! Mode bit constants from model/edge.go. -/

def ModeNone : Nat := 0
def ModeWalk : Nat := 1
def ModeBike : Nat := 2
def ModeCar : Nat := 4
def ModeBus : Nat := 8
def ModeSubway : Nat := 16

/-! Per-mode average speeds (m/s) from model/edge.go. -/

def SpeedWalk : ℚ := 14/10
def SpeedBike : ℚ := 42/10
def SpeedCar : ℚ := 83/10
def SpeedBus : ℚ := 55/10
def SpeedSubway : ℚ := 10

/-! Per-mode wait/preparation times (s) from model/edge.go. -/

def WaitTimeWalk : ℚ := 0
def WaitTimeBike : ℚ := 30
def WaitTimeCar : ℚ := 60
def WaitTimeBus : ℚ := 300
def WaitTimeSubway : ℚ := 180

/-- The loop body of model.ParseModes: the `switch m` that ORs the
matching bit into the accumulated mask. -/
def parseStep (mask : Nat) (m : String) : Nat :=
  if m = "walk" then mask ||| ModeWalk
  else if m = "bike" then mask ||| ModeBike
  else if m = "car" then mask ||| ModeCar
  else if m = "bus" then mask ||| ModeBus
  else if m = "subway" then mask ||| ModeSubway
  else mask

/-- model.ParseModes: fold the mode-name list into a bitmask; names outside
the five-mode vocabulary leave the mask unchanged. -/
def ParseModes (modes : List String) : Nat :=
  modes.foldl parseStep 0

/-- model.GetModeSpeed: speed table, defaulting to walking speed. -/
def GetModeSpeed (mode : String) : ℚ :=
  if mode = "walk" then SpeedWalk
  else if mode = "bike" then SpeedBike
  else if mode = "car" then SpeedCar
  else if mode = "bus" then SpeedBus
  else if mode = "subway" then SpeedSubway
  else SpeedWalk

/-- model.GetModeWaitTime: wait table, defaulting to 0. -/
def GetModeWaitTime (mode : String) : ℚ :=
  if mode = "walk" then WaitTimeWalk
  else if mode = "bike" then WaitTimeBike
  else if mode = "car" then WaitTimeCar
  else if mode = "bus" then WaitTimeBus
  else if mode = "subway" then WaitTimeSubway
  else 0

/-- model.GetModeMask: single-mode bitmask, 0 for unknown names. -/
def GetModeMask (mode : String) : Nat :=
  if mode = "walk" then ModeWalk
  else if mode = "bike" then ModeBike
  else if mode = "car" then ModeCar
  else if mode = "bus" then ModeBus
  else if mode = "subway" then ModeSubway
  else 0

/-- model.FilterModesByMask: keep the edge modes whose bit is allowed. -/
def FilterModesByMask (edgeModes : List String) (userModeMask : Nat) : List String :=
  edgeModes.filter (fun mode => GetModeMask mode &&& userModeMask != 0)

/-- The wait-penalty computation of the candidate-mode loop body of
model.EstimateSegmentTime (the `switch mode` that sets `needWait`,
followed by the `GetModeWaitTime` lookup). -/
def candidateWait (mode prevMode prevLineID currentLineID : String) : ℚ :=
  let needWait : Bool :=
    if mode = "walk" then false
    else if mode = "bike" ∨ mode = "car" then decide (prevMode ≠ mode)
    else if mode = "bus" ∨ mode = "subway" then
      decide (prevMode ≠ mode ∨ (prevLineID ≠ currentLineID ∧ currentLineID ≠ ""))
    else false
  if needWait then GetModeWaitTime mode else 0

/-- The total (travel + wait) time a candidate mode is priced at inside
model.EstimateSegmentTime. -/
def candidateTotal (distance : ℚ) (mode prevMode prevLineID currentLineID : String) : ℚ :=
  distance / GetModeSpeed mode + candidateWait mode prevMode prevLineID currentLineID

/-- The loop body of model.EstimateSegmentTime: keep the tracked
`(bestTime, bestMode)` pair unless `bestTime < 0 || totalTime < bestTime`. -/
def bestStep (distance : ℚ) (prevMode prevLineID currentLineID : String)
    (best : ℚ × String) (mode : String) : ℚ × String :=
  let totalTime := candidateTotal distance mode prevMode prevLineID currentLineID
  if best.1 < 0 ∨ totalTime < best.1 then (totalTime, mode) else best

/-- model.EstimateSegmentTime: pick, over the available modes, the candidate
with the smallest total time, starting from the sentinel `bestTime = -1`.
An empty mode list falls back to walking with no wait. -/
def EstimateSegmentTime (distance : ℚ) (availableModes : List String)
    (prevMode prevLineID currentLineID : String) : ℚ × String :=
  if availableModes = [] then (distance / SpeedWalk, "walk")
  else availableModes.foldl (bestStep distance prevMode prevLineID currentLineID) (-1, "")

/-! ### Graph structure (algo/graph.go) -/

/-- Override a Go string-keyed map, modelled as a lookup function, at one key. -/
def upd {α : Type} (f : String → α) (k : String) (v : α) : String → α :=
  fun x => if x = k then v else f x

/-- Lookup in the adjacency map; a missing key reads as the empty list,
mirroring the zero-value read of a Go `map[string][]*model.Edge`. -/
def adjLookup (l : List (String × List Edge)) (k : String) : List Edge :=
  match l.find? (fun p => p.1 == k) with
  | some p => p.2
  | none => []

/-- The append `AdjList[k] = append(AdjList[k], e)` on the association-list
model. -/
def adjAppend (l : List (String × List Edge)) (k : String) (e : Edge) :
    List (String × List Edge) :=
  match l with
  | [] => [(k, [e])]
  | p :: rest => if p.1 = k then (p.1, p.2 ++ [e]) :: rest else p :: adjAppend rest k e

/-- algo.Graph.  `Nodes` keeps Go's map semantics (absent key reads as nil);
`AdjList` is an association list so that the total edge count, which bounds
the work of the search loop, is computable. -/
structure Graph where
  Nodes : String → Option Node
  AdjList : List (String × List Edge)
  NodeList : List Node

/-- algo.NewGraph. -/
def NewGraph : Graph :=
  { Nodes := fun _ => none, AdjList := [], NodeList := [] }

/-- algo.Graph.GetNeighbors: outgoing edges whose mask intersects the query mask. -/
def Graph.GetNeighbors (g : Graph) (nodeID : String) (modeMask : Nat) : List Edge :=
  (adjLookup g.AdjList nodeID).filter (fun edge => edge.ModeMask &&& modeMask != 0)

/-- algo.getBidirectionalModes: the {walk,bike,car} sublist of a mode list. -/
def getBidirectionalModes (modes : List String) : List String :=
  modes.filter (fun m => m == "walk" || m == "bike" || m == "car")

/-- The `bidirectionalMask` local of both loaders. -/
def bidirectionalMask : Nat := ModeWalk ||| ModeBike ||| ModeCar

/-- The node loop shared by both loaders: place each node in the map and
append it to the insertion-ordered node list. -/
def loadNodes (g : Graph) (nodes : List Node) : Graph :=
  nodes.foldl (fun g n =>
    { g with Nodes := upd g.Nodes n.ID (some n), NodeList := g.NodeList ++ [n] }) g

/-- The distance written to an edge by the edge loop of algo.LoadFromJSON:
a zero distance is replaced by the great-circle distance of the endpoints
when both resolve, and is otherwise left as is.  `hav` stands for
utils.HaversineDistance, whose floating-point trigonometry is kept as a
parameter of the model. -/
def jsonDist (hav : Point → Point → ℚ) (nodes : String → Option Node) (e : Edge) : ℚ :=
  if e.Dist = 0 then
    match nodes e.From, nodes e.To with
    | some fromNode, some toNode =>
        hav ⟨fromNode.Lat, fromNode.Lng⟩ ⟨toNode.Lat, toNode.Lng⟩
    | _, _ => e.Dist
  else e.Dist

/-- The edge as stored by the edge loop of algo.LoadFromJSON: the derived
mode bitmask is filled in and a zero distance is adjusted. -/
def jsonForwardEdge (hav : Point → Point → ℚ) (g : Graph) (e : Edge) : Edge :=
  { e with ModeMask := ParseModes e.Modes, Dist := jsonDist hav g.Nodes e }

/-- The reverse edge algo.LoadFromJSON synthesizes: swapped endpoints, the
forward (adjusted) distance, the {walk,bike,car} subset of the modes — as
names and as bitmask — and the forward description with the reversal
marker appended.  The line ID is left at its zero value. -/
def jsonReverseEdge (hav : Point → Point → ℚ) (g : Graph) (e : Edge) : Edge :=
  { From := e.To, To := e.From, Dist := jsonDist hav g.Nodes e,
    Modes := getBidirectionalModes e.Modes,
    ModeMask := ParseModes e.Modes &&& bidirectionalMask,
    LineID := "", Desc := e.Desc ++ " (反向)" }

/-- One iteration of the edge loop of algo.LoadFromJSON: compute the mask,
adjust a zero distance, append the edge, then synthesize the reverse edge
unless one with matching endpoints is already present. -/
def processJSONEdge (hav : Point → Point → ℚ) (g : Graph) (e : Edge) : Graph :=
  let edge := jsonForwardEdge hav g e
  let g1 : Graph := { g with AdjList := adjAppend g.AdjList edge.From edge }
  if edge.ModeMask &&& bidirectionalMask != 0 then
    let reverseExists :=
      (adjLookup g1.AdjList edge.To).any
        (fun existingEdge => existingEdge.From == edge.To && existingEdge.To == edge.From)
    if reverseExists then g1
    else { g1 with AdjList := adjAppend g1.AdjList edge.To (jsonReverseEdge hav g e) }
  else g1

/-- algo.LoadFromJSON after the file has been read and decoded: the node
loop followed by the edge loop.  File access and JSON decoding are outside
the model; `hav` stands for utils.HaversineDistance. -/
def LoadFromJSONData (hav : Point → Point → ℚ) (nodes : List Node) (edges : List Edge) :
    Graph :=
  edges.foldl (processJSONEdge hav) (loadNodes NewGraph nodes)

/-- The edge as stored by the edge loop of algo.LoadFromDB: only the mode
bitmask is recomputed; the distance is kept exactly as the record holds it. -/
def dbForwardEdge (e : Edge) : Edge :=
  { e with ModeMask := ParseModes e.Modes }

/-- The reverse edge algo.LoadFromDB synthesizes. -/
def dbReverseEdge (e : Edge) : Edge :=
  { From := e.To, To := e.From, Dist := e.Dist,
    Modes := getBidirectionalModes e.Modes,
    ModeMask := ParseModes e.Modes &&& bidirectionalMask,
    LineID := "", Desc := e.Desc ++ " (反向)" }

/-- One iteration of the edge loop of algo.LoadFromDB: compute the mask,
append the edge, and always synthesize the reverse edge when the mask meets
{walk,bike,car} — this loader has neither the zero-distance replacement nor
the reverse-duplicate check of the JSON loader. -/
def processDBEdge (g : Graph) (e : Edge) : Graph :=
  let edge := dbForwardEdge e
  let g1 : Graph := { g with AdjList := adjAppend g.AdjList edge.From edge }
  if edge.ModeMask &&& bidirectionalMask != 0 then
    { g1 with AdjList := adjAppend g1.AdjList edge.To (dbReverseEdge e) }
  else g1

/-- algo.LoadFromDB after the two database queries: the node and edge loops
applied to the records the queries returned. -/
def LoadFromDBRecords (nodes : List Node) (edges : List Edge) : Graph :=
  edges.foldl processDBEdge (loadNodes NewGraph nodes)

/-! ### Pathfinder (algo/dijkstra.go) -/

/-- algo.PathSegment. -/
structure PathSegment where
  FromID : String
  ToID : String
  Distance : ℚ
  Time : ℚ
  Modes : List String
  UsedMode : String
  LineID : String
  Desc : String
deriving DecidableEq

/-- algo.PathResult. -/
structure PathResult where
  Path : List String
  Segments : List PathSegment
  Distance : ℚ
  EstimatedTime : ℚ
  Found : Bool
deriving DecidableEq

/-- A float64 time cost: either finite or `math.Inf(1)`.  Multiplication
never occurs, so no other IEEE value can arise. -/
inductive FCost where
  | inf : FCost
  | fin : ℚ → FCost
deriving DecidableEq

/-- Float addition of a finite increment to a cost. -/
def FCost.add : FCost → ℚ → FCost
  | FCost.inf, _ => FCost.inf
  | FCost.fin x, q => FCost.fin (x + q)

/-- Float `<` restricted to {finite, +Inf}. -/
def FCost.lt : FCost → FCost → Bool
  | FCost.inf, _ => false
  | FCost.fin _, FCost.inf => true
  | FCost.fin x, FCost.fin y => x < y

/-- algo.PriorityQueueItem (without the heap-internal `Index` field). -/
structure PriorityQueueItem where
  NodeID : String
  Cost : FCost
  Mode : String
  LineID : String
deriving DecidableEq

/-- Extraction from the min-heap: remove one item of minimal cost.  Among
equal costs the earliest list position wins; which equal-cost item
container/heap yields is the queue-order nondeterminism the spec accepts. -/
def popMin : List PriorityQueueItem → Option (PriorityQueueItem × List PriorityQueueItem)
  | [] => none
  | x :: xs =>
    match popMin xs with
    | none => some (x, [])
    | some (m, rest) => if FCost.lt m.Cost x.Cost then some (m, x :: rest) else some (x, xs)

/-- The per-call mutable state of algo.Graph.Dijkstra.  Each map carries the
zero-value-on-missing-key read semantics of the corresponding Go map. -/
structure DState where
  timeCost : String → FCost
  prev : String → String
  prevEdge : String → Option Edge
  prevMode : String → String
  prevLineID : String → String
  visited : String → Bool
  pq : List PriorityQueueItem

/-- The body of the neighbor loop: filter the edge's modes, price it with
the segment-time function in the context of the current arrival mode/line,
and relax the neighbor when strictly cheaper. -/
def relaxEdge (modeMask : Nat) (current : PriorityQueueItem) (st : DState) (edge : Edge) :
    DState :=
  let availableModes := FilterModesByMask edge.Modes modeMask
  if availableModes = [] then st
  else
    let priced := EstimateSegmentTime edge.Dist availableModes current.Mode current.LineID
      edge.LineID
    let newCost := (st.timeCost current.NodeID).add priced.1
    if FCost.lt newCost (st.timeCost edge.To) then
      { st with
        timeCost := upd st.timeCost edge.To newCost,
        prev := upd st.prev edge.To current.NodeID,
        prevEdge := upd st.prevEdge edge.To (some edge),
        prevMode := upd st.prevMode edge.To priced.2,
        prevLineID := upd st.prevLineID edge.To edge.LineID,
        pq := st.pq ++ [{ NodeID := edge.To, Cost := newCost, Mode := priced.2,
                          LineID := edge.LineID }] }
    else st

/-- The neighbor loop of one popped node. -/
def relaxNode (g : Graph) (modeMask : Nat) (current : PriorityQueueItem) (st : DState) :
    DState :=
  (g.GetNeighbors current.NodeID modeMask).foldl (relaxEdge modeMask current) st

/-- The main `for pq.Len() > 0` loop: pop a minimum, skip it if already
visited, mark it visited, stop at the end node, otherwise relax its
neighbors.  The loop pops one queued item per iteration and at most
`1 + totalEdges` items are ever pushed, so the fuel passed by `Dijkstra`
is never exhausted. -/
def dijkstraLoop (g : Graph) (modeMask : Nat) (endID : String) : Nat → DState → DState
  | 0, st => st
  | fuel+1, st =>
    match popMin st.pq with
    | none => st
    | some (current, rest) =>
      if st.visited current.NodeID then
        dijkstraLoop g modeMask endID fuel { st with pq := rest }
      else
        let st2 : DState :=
          { st with pq := rest, visited := upd st.visited current.NodeID true }
        if current.NodeID = endID then st2
        else dijkstraLoop g modeMask endID fuel (relaxNode g modeMask current st2)

/-- The backtracking loop `for at := endID; at != ""; at = prev[at]`,
producing the node sequence end-first.  Its fuel covers the acyclic
predecessor chains the search constructs. -/
def buildPath (prev : String → String) (startID : String) : Nat → String → List String
  | 0, _ => []
  | fuel+1, cur =>
    if cur = "" then []
    else if cur = startID then [cur]
    else cur :: buildPath prev startID fuel (prev cur)

/-- The forward reconstruction loop over consecutive path nodes: re-price
each recorded edge with the running mode/line state, emit its segment, and
accumulate total time and distance.  A missing recorded edge is skipped,
as in the Go `if edge != nil` guard. -/
def reconstructSegments (prevEdge : String → Option Edge) (modeMask : Nat) :
    List String → String → String → List PathSegment × ℚ × ℚ
  | fromID :: toID :: rest, currentMode, currentLineID =>
    match prevEdge toID with
    | some edge =>
      let actualModes := FilterModesByMask edge.Modes modeMask
      let priced := EstimateSegmentTime edge.Dist actualModes currentMode currentLineID
        edge.LineID
      let tail := reconstructSegments prevEdge modeMask (toID :: rest) priced.2 edge.LineID
      ({ FromID := fromID, ToID := toID, Distance := edge.Dist, Time := priced.1,
         Modes := actualModes, UsedMode := priced.2, LineID := edge.LineID,
         Desc := edge.Desc } :: tail.1,
       priced.1 + tail.2.1, edge.Dist + tail.2.2)
    | none => reconstructSegments prevEdge modeMask (toID :: rest) currentMode currentLineID
  | _, _, _ => ([], 0, 0)

/-- Total number of stored adjacency entries; it bounds the queue traffic
of the search. -/
def totalEdges (g : Graph) : Nat :=
  (g.AdjList.map (fun p => p.2.length)).sum

/-- The initial search state: every node's cost is infinite, the start's is
zero, and reads of keys never written yield the Go float zero value. -/
def dijkstraInit (g : Graph) (startID : String) : DState :=
  { timeCost :=
      upd (fun id => if (g.Nodes id).isSome then FCost.inf else FCost.fin 0) startID
        (FCost.fin 0),
    prev := fun _ => "",
    prevEdge := fun _ => none,
    prevMode := fun _ => "",
    prevLineID := fun _ => "",
    visited := fun _ => false,
    pq := [{ NodeID := startID, Cost := FCost.fin 0, Mode := "", LineID := "" }] }

/-- algo.Graph.Dijkstra: guard the endpoints, run the label-setting loop,
report not-found when the end cost stayed infinite, else backtrack the
predecessor chain and rebuild the per-segment detail. -/
def Graph.Dijkstra (g : Graph) (startID endID : String) (modeMask : Nat) : PathResult :=
  if (g.Nodes startID).isNone || (g.Nodes endID).isNone then
    { Path := [], Segments := [], Distance := 0, EstimatedTime := 0, Found := false }
  else
    let final := dijkstraLoop g modeMask endID (totalEdges g + 2) (dijkstraInit g startID)
    if final.timeCost endID = FCost.inf then
      { Path := [], Segments := [], Distance := 0, EstimatedTime := 0, Found := false }
    else
      let path := (buildPath final.prev startID (g.NodeList.length + 1) endID).reverse
      let rebuilt := reconstructSegments final.prevEdge modeMask path "" ""
      { Path := path, Segments := rebuilt.1, Distance := rebuilt.2.2,
        EstimatedTime := rebuilt.2.1, Found := true }

/-! ### Spec-side notions used to state the claims -/

/-- Total transfer-aware time of an edge sequence: each edge is priced by
the segment-time function in the running mode/line context, exactly as the
relaxation and reconstruction loops price it. -/
def pathCost (modeMask : Nat) : List Edge → String → String → ℚ
  | [], _, _ => 0
  | e :: rest, prevMode, prevLine =>
    let priced := EstimateSegmentTime e.Dist (FilterModesByMask e.Modes modeMask) prevMode
      prevLine e.LineID
    priced.1 + pathCost modeMask rest priced.2 e.LineID

/-- `validPathB g modeMask u endID es` holds when `es` is a chain of stored
adjacency edges leading from `u` to `endID`, every edge passing the
mode-mask filter. -/
def validPathB (g : Graph) (modeMask : Nat) : String → String → List Edge → Bool
  | u, endID, [] => u == endID
  | u, endID, e :: rest =>
    decide (e.From = u) && (adjLookup g.AdjList u).any (fun x => decide (x = e)) &&
      (e.ModeMask &&& modeMask != 0) && validPathB g modeMask e.To endID rest

/-- Replay of the segment-time function along a reported segment list,
threading the used mode and line as the transfer context. -/
def segmentsCost : List PathSegment → String → String → ℚ
  | [], _, _ => 0
  | seg :: rest, prevMode, prevLine =>
    (EstimateSegmentTime seg.Distance seg.Modes prevMode prevLine seg.LineID).1 +
      segmentsCost rest seg.UsedMode seg.LineID

/-! ### Concrete inputs used by the claims -/

/-- Nodes A, B, C placed on plausible coordinates. -/
def nodeA : Node := { ID := "A", Name := "A", Lat := 348/10, Lng := 1135/10, Typ := "landmark" }

def nodeB : Node := { ID := "B", Name := "B", Lat := 3485/100, Lng := 1136/10, Typ := "bus_stop" }

def nodeC : Node := { ID := "C", Name := "C", Lat := 349/10, Lng := 1137/10, Typ := "bus_stop" }

/-- Bus edge A→B on line L1, 100 m. -/
def edgeABbus : Edge :=
  { From := "A", To := "B", Dist := 100, Modes := ["bus"], LineID := "L1", Desc := "",
    ModeMask := 8 }

/-- Walk edge A→B, 100 m. -/
def edgeABwalk : Edge :=
  { From := "A", To := "B", Dist := 100, Modes := ["walk"], LineID := "", Desc := "",
    ModeMask := 1 }

/-- Bus edge B→C on line L1, 1000 m. -/
def edgeBCbus : Edge :=
  { From := "B", To := "C", Dist := 1000, Modes := ["bus"], LineID := "L1", Desc := "",
    ModeMask := 8 }

/-- The graph on which the single-label-per-node search is suboptimal:
A→B by bus (line L1) or on foot, then B→C only by bus on line L1.
Arriving at B on foot is cheaper, but forfeits the free continuation on L1. -/
def cexGraph : Graph :=
  { Nodes := fun id =>
      if id = "A" then some nodeA else if id = "B" then some nodeB
      else if id = "C" then some nodeC else none,
    AdjList := [("A", [edgeABbus, edgeABwalk]), ("B", [edgeBCbus])],
    NodeList := [nodeA, nodeB, nodeC] }

/-- Bus edge A→B on line L1, 1000 m (the three-node bus scenario). -/
def edgeABbus1000 : Edge :=
  { From := "A", To := "B", Dist := 1000, Modes := ["bus"], LineID := "L1", Desc := "",
    ModeMask := 8 }

/-- The concrete scenario graph: A→B→C, both edges bus-only on line L1,
1000 m each. -/
def busGraph : Graph :=
  { Nodes := fun id =>
      if id = "A" then some nodeA else if id = "B" then some nodeB
      else if id = "C" then some nodeC else none,
    AdjList := [("A", [edgeABbus1000]), ("B", [edgeBCbus])],
    NodeList := [nodeA, nodeB, nodeC] }

/-- A walkable B→A edge record, as stored in the database. -/
def edgeBAdb : Edge :=
  { From := "B", To := "A", Dist := 50, Modes := ["walk"], LineID := "", Desc := "ba",
    ModeMask := 0 }

/-- A walkable A→B edge record, as stored in the database. -/
def edgeABdb : Edge :=
  { From := "A", To := "B", Dist := 50, Modes := ["walk"], LineID := "", Desc := "ab",
    ModeMask := 0 }

/-- A zero-distance walkable A→B edge record, whose endpoints both resolve
to nodes with (distinct) known coordinates. -/
def edgeABzero : Edge :=
  { From := "A", To := "B", Dist := 0, Modes := ["walk"], LineID := "", Desc := "",
    ModeMask := 0 }

/-- A graph whose only stored edge is B→A, so that processing A→B finds an
existing reverse edge. -/
def revGraph : Graph :=
  { Nodes := fun _ => none, AdjList := [("B", [edgeBAdb])], NodeList := [] }

/-- A node whose string ID is empty — the data model allows any string ID. -/
def emptyIDNode : Node :=
  { ID := "", Name := "origin", Lat := 0, Lng := 0, Typ := "landmark" }

/-- A graph containing only the empty-ID node. -/
def emptyIDGraph : Graph :=
  { Nodes := fun id => if id = "" then some emptyIDNode else none, AdjList := [],
    NodeList := [emptyIDNode] }

/-! ### Helper lemmas -/

theorem adjLookup_adjAppend_self (l : List (String × List Edge)) (k : String) (e : Edge) :
    adjLookup (adjAppend l k e) k = adjLookup l k ++ [e] := by
  induction l with
  | nil => simp [adjAppend, adjLookup]
  | cons p rest ih =>
    by_cases h : p.1 = k
    · simp [adjAppend, adjLookup, h]
    · simp [adjAppend, adjLookup, h, ih]
      simpa [adjLookup] using ih

theorem adjLookup_adjAppend_ne (l : List (String × List Edge)) (k k' : String) (e : Edge)
    (h : k' ≠ k) : adjLookup (adjAppend l k e) k' = adjLookup l k' := by
  induction l with
  | nil => simp [adjAppend, adjLookup, Ne.symm h]
  | cons p rest ih =>
    by_cases hp : p.1 = k
    · simp [adjAppend, adjLookup, hp, Ne.symm h]
    · by_cases hp' : p.1 = k'
      · simp [adjAppend, adjLookup, hp, hp', h]
      · simp [adjAppend, adjLookup, hp, hp', ih]
        simpa [adjLookup] using ih

theorem upd_same {α : Type} (f : String → α) (k : String) (v : α) : upd f k v k = v := by
  simp [upd]

theorem parseStep_eq (a : Nat) (m : String) : parseStep a m = a ||| GetModeMask m := by
  unfold parseStep GetModeMask
  split_ifs <;> simp

theorem foldl_parseStep (l : List String) :
    ∀ a : Nat, l.foldl parseStep a = a ||| ParseModes l := by
  induction l with
  | nil => intro a; simp [ParseModes]
  | cons m t ih =>
    intro a
    show List.foldl parseStep (parseStep a m) t = a ||| ParseModes (m :: t)
    have h2 : ParseModes (m :: t) = GetModeMask m ||| ParseModes t := by
      show List.foldl parseStep (parseStep 0 m) t = _
      rw [ih, parseStep_eq]
      simp
    rw [ih, parseStep_eq, h2, Nat.lor_assoc]

theorem parseModes_cons (m : String) (t : List String) :
    ParseModes (m :: t) = GetModeMask m ||| ParseModes t := by
  show List.foldl parseStep (parseStep 0 m) t = _
  rw [foldl_parseStep, parseStep_eq]
  simp

theorem parseModes_append (l₁ l₂ : List String) :
    ParseModes (l₁ ++ l₂) = ParseModes l₁ ||| ParseModes l₂ := by
  show List.foldl parseStep 0 (l₁ ++ l₂) = _
  rw [List.foldl_append, foldl_parseStep]
  rfl

theorem land_lor_distrib_right (a b c : Nat) : (a ||| b) &&& c = (a &&& c) ||| (b &&& c) := by
  apply Nat.eq_of_testBit_eq
  intro i
  simp only [Nat.testBit_lor, Nat.testBit_land]
  cases a.testBit i <;> cases b.testBit i <;> cases c.testBit i <;> rfl

theorem getModeMask_land_bidir (m : String) :
    GetModeMask m &&& bidirectionalMask =
      (if m == "walk" || m == "bike" || m == "car" then GetModeMask m else 0) := by
  unfold GetModeMask bidirectionalMask ModeWalk ModeBike ModeCar ModeBus ModeSubway
  by_cases h1 : m = "walk"
  · simp [h1]
  · by_cases h2 : m = "bike"
    · simp [h1, h2]
      decide
    · by_cases h3 : m = "car"
      · simp [h1, h2, h3]
        decide
      · by_cases h4 : m = "bus"
        · simp [h1, h2, h3, h4]
          decide
        · by_cases h5 : m = "subway"
          · simp [h1, h2, h3, h4, h5]
            decide
          · simp [h1, h2, h3, h4, h5]

theorem jsonForwardEdge_From (hav : Point → Point → ℚ) (g : Graph) (e : Edge) :
    (jsonForwardEdge hav g e).From = e.From := rfl

theorem jsonForwardEdge_To (hav : Point → Point → ℚ) (g : Graph) (e : Edge) :
    (jsonForwardEdge hav g e).To = e.To := rfl

theorem jsonForwardEdge_ModeMask (hav : Point → Point → ℚ) (g : Graph) (e : Edge) :
    (jsonForwardEdge hav g e).ModeMask = ParseModes e.Modes := rfl

/-- The edge loop of the JSON loader always appends exactly the processed
forward edge to the source node's adjacency list: the reverse-synthesis
branch never touches it (for a self-loop the freshly appended forward edge
itself satisfies the reverse-exists check). -/
theorem processJSONEdge_forward (hav : Point → Point → ℚ) (g : Graph) (e : Edge) :
    adjLookup (processJSONEdge hav g e).AdjList e.From =
      adjLookup g.AdjList e.From ++ [jsonForwardEdge hav g e] := by
  by_cases h7 : ParseModes e.Modes &&& bidirectionalMask = 0
  · simp only [processJSONEdge, jsonForwardEdge_From, jsonForwardEdge_To,
      jsonForwardEdge_ModeMask, h7]
    simp [adjLookup_adjAppend_self]
  · by_cases hne : e.From = e.To
    · have hmem : jsonForwardEdge hav g e ∈
          adjLookup (adjAppend g.AdjList e.From (jsonForwardEdge hav g e)) e.To := by
        rw [← hne, adjLookup_adjAppend_self]
        simp
      have hany : ((adjLookup (adjAppend g.AdjList e.From (jsonForwardEdge hav g e)) e.To).any
          (fun ex => ex.From == e.To && ex.To == e.From)) = true :=
        List.any_eq_true.mpr ⟨_, hmem, by
          simp [jsonForwardEdge_From, jsonForwardEdge_To, ← hne]⟩
      simp only [processJSONEdge, jsonForwardEdge_From, jsonForwardEdge_To,
        jsonForwardEdge_ModeMask]
      simp [hany, h7, bne_iff_ne, adjLookup_adjAppend_self]
    · by_cases hrev : ((adjLookup (adjAppend g.AdjList e.From (jsonForwardEdge hav g e)) e.To).any
          (fun ex => ex.From == e.To && ex.To == e.From)) = true
      · simp only [processJSONEdge, jsonForwardEdge_From, jsonForwardEdge_To,
          jsonForwardEdge_ModeMask]
        simp [hrev, h7, bne_iff_ne, adjLookup_adjAppend_self]
      · simp only [processJSONEdge, jsonForwardEdge_From, jsonForwardEdge_To,
          jsonForwardEdge_ModeMask]
        simp [hrev, h7, bne_iff_ne, adjLookup_adjAppend_self,
          adjLookup_adjAppend_ne _ _ _ _ hne]

/-- The time total accumulated by the reconstruction loop equals the replay
of the segment-time function over the segment list it emits. -/
theorem reconstruct_replay (prevEdge : String → Option Edge) (mask : Nat) :
    ∀ (path : List String) (m l : String),
      (reconstructSegments prevEdge mask path m l).2.1 =
        segmentsCost (reconstructSegments prevEdge mask path m l).1 m l
  | [], _, _ => rfl
  | [_], _, _ => rfl
  | a :: b :: rest, m, l => by
    cases h : prevEdge b with
    | none =>
      have ih := reconstruct_replay prevEdge mask (b :: rest) m l
      simp only [reconstructSegments, h]
      exact ih
    | some edge =>
      have ih := reconstruct_replay prevEdge mask (b :: rest)
        (EstimateSegmentTime edge.Dist (FilterModesByMask edge.Modes mask) m l edge.LineID).2
        edge.LineID
      simp only [reconstructSegments, h, segmentsCost]
      rw [ih]

theorem getModeSpeed_pos (m : String) : 0 < GetModeSpeed m := by
  unfold GetModeSpeed
  split_ifs <;> norm_num [SpeedWalk, SpeedBike, SpeedCar, SpeedBus, SpeedSubway]

theorem getModeWaitTime_nonneg (m : String) : 0 ≤ GetModeWaitTime m := by
  unfold GetModeWaitTime
  split_ifs <;> norm_num [WaitTimeWalk, WaitTimeBike, WaitTimeCar, WaitTimeBus, WaitTimeSubway]

theorem candidateWait_nonneg (m p pl cl : String) : 0 ≤ candidateWait m p pl cl := by
  have h : ∀ b : Bool, 0 ≤ (if b then GetModeWaitTime m else 0 : ℚ) := by
    intro b
    cases b
    · simp
    · simpa using getModeWaitTime_nonneg m
  unfold candidateWait
  exact h _

theorem candidateTotal_nonneg (d : ℚ) (hd : 0 ≤ d) (m p pl cl : String) :
    0 ≤ candidateTotal d m p pl cl :=
  add_nonneg (div_nonneg hd (getModeSpeed_pos m).le) (candidateWait_nonneg m p pl cl)

theorem foldBest_spec (d : ℚ) (p pl cl : String) :
    ∀ (modes : List String) (b : ℚ × String), 0 ≤ b.1 →
      (∀ m ∈ modes, 0 ≤ candidateTotal d m p pl cl) →
      (modes.foldl (bestStep d p pl cl) b).1 ≤ b.1 ∧
      (∀ m ∈ modes, (modes.foldl (bestStep d p pl cl) b).1 ≤ candidateTotal d m p pl cl) ∧
      0 ≤ (modes.foldl (bestStep d p pl cl) b).1 ∧
      (modes.foldl (bestStep d p pl cl) b = b ∨
        ((modes.foldl (bestStep d p pl cl) b).1 < b.1 ∧
          modes.find? (fun m => decide (candidateTotal d m p pl cl =
            (modes.foldl (bestStep d p pl cl) b).1)) =
            some (modes.foldl (bestStep d p pl cl) b).2)) := by
  intro modes
  induction modes with
  | nil =>
    intro b hb _
    exact ⟨le_refl _, by simp, hb, Or.inl rfl⟩
  | cons m t ih =>
    intro b hb hnn
    have hm : 0 ≤ candidateTotal d m p pl cl := hnn m (List.mem_cons_self m t)
    have hnt : ∀ m' ∈ t, 0 ≤ candidateTotal d m' p pl cl :=
      fun m' hm' => hnn m' (List.mem_cons_of_mem m hm')
    by_cases hlt : candidateTotal d m p pl cl < b.1
    · have hstep : bestStep d p pl cl b m = (candidateTotal d m p pl cl, m) := by
        unfold bestStep
        rw [if_pos (Or.inr hlt)]
      have hfold : (m :: t).foldl (bestStep d p pl cl) b =
          t.foldl (bestStep d p pl cl) (candidateTotal d m p pl cl, m) := by
        rw [List.foldl_cons, hstep]
      obtain ⟨ih1, ih2, ih3, ih4⟩ := ih (candidateTotal d m p pl cl, m) hm hnt
      rw [hfold]
      refine ⟨le_of_lt (lt_of_le_of_lt ih1 hlt), ?_, ih3, Or.inr ⟨lt_of_le_of_lt ih1 hlt, ?_⟩⟩
      · intro m' hm'
        rcases List.mem_cons.mp hm' with h | h
        · subst h
          exact ih1
        · exact ih2 m' h
      · rcases ih4 with heq | ⟨hlt2, hfind⟩
        · rw [heq]
          rw [List.find?_cons_of_pos _ (by simp)]
        · rw [List.find?_cons_of_neg _ (by simp; exact ne_of_gt hlt2), hfind]
    · have hstep : bestStep d p pl cl b m = b := by
        unfold bestStep
        rw [if_neg]
        push_neg
        exact ⟨hb, not_lt.mp hlt⟩
      have hfold : (m :: t).foldl (bestStep d p pl cl) b =
          t.foldl (bestStep d p pl cl) b := by
        rw [List.foldl_cons, hstep]
      obtain ⟨ih1, ih2, ih3, ih4⟩ := ih b hb hnt
      rw [hfold]
      refine ⟨ih1, ?_, ih3, ?_⟩
      · intro m' hm'
        rcases List.mem_cons.mp hm' with h | h
        · subst h
          exact le_trans ih1 (not_lt.mp hlt)
        · exact ih2 m' h
      · rcases ih4 with heq | ⟨hlt2, hfind⟩
        · exact Or.inl heq
        · refine Or.inr ⟨hlt2, ?_⟩
          rw [List.find?_cons_of_neg _ (by simp; exact ne_of_gt (lt_of_lt_of_le hlt2 (not_lt.mp hlt))), hfind]

theorem parseModes_perm {l₁ l₂ : List String} (h : l₁.Perm l₂) :
    ParseModes l₁ = ParseModes l₂ := by
  induction h with
  | nil => rfl
  | cons m _ ih => rw [parseModes_cons, parseModes_cons, ih]
  | swap x y t =>
    rw [parseModes_cons, parseModes_cons, parseModes_cons, parseModes_cons,
      ← Nat.lor_assoc, ← Nat.lor_assoc, Nat.lor_comm (GetModeMask y) (GetModeMask x)]
  | trans _ _ ih₁ ih₂ => rw [ih₁, ih₂]

theorem parse_bidirectional (l : List String) :
    ParseModes (getBidirectionalModes l) = ParseModes l &&& bidirectionalMask := by
  induction l with
  | nil => rfl
  | cons m t ih =>
    by_cases hp : (m == "walk" || m == "bike" || m == "car") = true
    · rw [show getBidirectionalModes (m :: t) = m :: getBidirectionalModes t by
        simp [getBidirectionalModes, List.filter, hp]]
      rw [parseModes_cons, parseModes_cons, land_lor_distrib_right, ih,
        getModeMask_land_bidir, if_pos hp]
    · rw [show getBidirectionalModes (m :: t) = getBidirectionalModes t by
        simp [getBidirectionalModes, List.filter, hp]]
      rw [parseModes_cons, land_lor_distrib_right, ih, getModeMask_land_bidir, if_neg hp]
      simp

theorem upd_ne {α : Type} (f : String → α) (k k' : String) (v : α) (h : k' ≠ k) :
    upd f k v k' = f k' := by
  simp [upd, h]

/-! ### Claims about graph construction -/

/-- C2 (amended part): in the JSON loader, processing an edge whose reverse
is already present in the target's adjacency list leaves that list
unchanged — no duplicate reverse edge is synthesized. -/
theorem c2_json_no_duplicate_reverse (hav : Point → Point → ℚ) (g : Graph) (e : Edge)
    (hne : e.From ≠ e.To)
    (hex : ∃ x ∈ adjLookup g.AdjList e.To, x.From = e.To ∧ x.To = e.From) :
    adjLookup (processJSONEdge hav g e).AdjList e.To = adjLookup g.AdjList e.To := by
  obtain ⟨x, hx, hxf, hxt⟩ := hex
  by_cases h7 : ParseModes e.Modes &&& bidirectionalMask = 0
  · simp [processJSONEdge, jsonForwardEdge, h7, adjLookup_adjAppend_ne _ _ _ _ (Ne.symm hne)]
  · have hany : ∀ (l : List Edge), x ∈ l →
        (l.any fun ex => ex.From == e.To && ex.To == e.From) = true :=
      fun l hl => List.any_eq_true.mpr ⟨x, hl, by simp [hxf, hxt]⟩
    simp [processJSONEdge, jsonForwardEdge, bne_iff_ne, h7,
      adjLookup_adjAppend_ne _ _ _ _ (Ne.symm hne), hany _ hx]

/-! ### Claims about the mode/cost model -/

/-- C4: a candidate mode is charged a wait of exactly its mode wait time iff
it is bike/car and the previous mode differs, or it is bus/subway and the
previous mode differs or the line changes to a non-empty line; walk is never
charged, and the penalty is always 0 or the full mode wait time. -/
theorem c4_wait_penalty_rule (mode prevMode prevLineID currentLineID : String) :
    candidateWait mode prevMode prevLineID currentLineID =
      (if ((mode = "bike" ∨ mode = "car") ∧ prevMode ≠ mode) ∨
          ((mode = "bus" ∨ mode = "subway") ∧
            (prevMode ≠ mode ∨ (prevLineID ≠ currentLineID ∧ currentLineID ≠ "")))
        then GetModeWaitTime mode else 0) ∧
    candidateWait "walk" prevMode prevLineID currentLineID = 0 ∧
    (candidateWait mode prevMode prevLineID currentLineID = 0 ∨
      candidateWait mode prevMode prevLineID currentLineID = GetModeWaitTime mode) := by
  have h1 : candidateWait mode prevMode prevLineID currentLineID =
      (if ((mode = "bike" ∨ mode = "car") ∧ prevMode ≠ mode) ∨
          ((mode = "bus" ∨ mode = "subway") ∧
            (prevMode ≠ mode ∨ (prevLineID ≠ currentLineID ∧ currentLineID ≠ "")))
        then GetModeWaitTime mode else 0) := by
    by_cases hw : mode = "walk" <;> by_cases hb : mode = "bike" <;>
      by_cases hc : mode = "car" <;> by_cases hu : mode = "bus" <;>
      by_cases hs : mode = "subway" <;>
      simp_all [candidateWait, GetModeWaitTime]
  refine ⟨h1, rfl, ?_⟩
  rw [h1]
  split
  · right
    rfl
  · left
    rfl

/-- C6: ParseModes is the OR of the recognized members' bits: unknown names
contribute nothing, permutation leaves the mask unchanged, and duplication
leaves the mask unchanged. -/
theorem c6_parse_modes_algebra :
    (∀ l, ParseModes l = l.foldr (fun m acc => GetModeMask m ||| acc) 0) ∧
    (∀ l₁ l₂, l₁.Perm l₂ → ParseModes l₁ = ParseModes l₂) ∧
    (∀ l, ParseModes (l ++ l) = ParseModes l) ∧
    (∀ m l, GetModeMask m = 0 → ParseModes (m :: l) = ParseModes l) := by
  refine ⟨?_, fun _ _ h => parseModes_perm h, ?_, ?_⟩
  · intro l
    induction l with
    | nil => rfl
    | cons m t ih => rw [parseModes_cons, List.foldr_cons, ih]
  · intro l
    rw [parseModes_append, Nat.or_self]
  · intro m l h
    rw [parseModes_cons, h]
    simp

/-- Witness for C6 at concrete inputs: a transposition and an unknown name. -/
theorem c6_parse_modes_algebra_witness :
    ParseModes ["bike", "walk"] = ParseModes ["walk", "bike"] ∧
    ParseModes ["tram", "walk"] = ParseModes ["walk"] :=
  ⟨c6_parse_modes_algebra.2.1 ["bike", "walk"] ["walk", "bike"] (by decide),
   c6_parse_modes_algebra.2.2.2 "tram" ["walk"] (by decide)⟩

/-- C5 (amended: the distance must be non-negative): with a non-empty mode
list the returned time is a lower bound of every candidate total and the
returned mode is the first candidate attaining it; with an empty list the
walking fallback is returned. -/
theorem c5_min_selection (distance : ℚ) (modes : List String)
    (prevMode prevLineID currentLineID : String) (hd : 0 ≤ distance) :
    EstimateSegmentTime distance [] prevMode prevLineID currentLineID =
      (distance / SpeedWalk, "walk") ∧
    (modes ≠ [] →
      (∀ m ∈ modes,
        (EstimateSegmentTime distance modes prevMode prevLineID currentLineID).1 ≤
          candidateTotal distance m prevMode prevLineID currentLineID) ∧
      modes.find? (fun m => decide (candidateTotal distance m prevMode prevLineID currentLineID =
          (EstimateSegmentTime distance modes prevMode prevLineID currentLineID).1)) =
        some (EstimateSegmentTime distance modes prevMode prevLineID currentLineID).2) := by
  refine ⟨rfl, ?_⟩
  intro hne
  obtain ⟨m, t, rfl⟩ := List.exists_cons_of_ne_nil hne
  have hest : EstimateSegmentTime distance (m :: t) prevMode prevLineID currentLineID =
      t.foldl (bestStep distance prevMode prevLineID currentLineID)
        (candidateTotal distance m prevMode prevLineID currentLineID, m) := by
    unfold EstimateSegmentTime
    rw [if_neg (by simp), List.foldl_cons]
    congr 1
  obtain ⟨ih1, ih2, ih3, ih4⟩ := foldBest_spec distance prevMode prevLineID currentLineID t
    (candidateTotal distance m prevMode prevLineID currentLineID, m)
    (candidateTotal_nonneg distance hd m prevMode prevLineID currentLineID)
    (fun m' _ => candidateTotal_nonneg distance hd m' prevMode prevLineID currentLineID)
  rw [hest]
  constructor
  · intro m' hm'
    rcases List.mem_cons.mp hm' with h | h
    · subst h
      exact ih1
    · exact ih2 m' h
  · rcases ih4 with heq | ⟨hlt2, hfind⟩
    · rw [heq, List.find?_cons_of_pos _ (by simp)]
    · rw [List.find?_cons_of_neg _ (by simp; exact ne_of_gt hlt2), hfind]

/-- C5 counterexample: with a negative distance the `-1` sentinel keeps the
`bestTime < 0` test true, so a later, larger negative total replaces an
earlier smaller one: bike is returned although walk's total is smaller. -/
theorem c5_counterexample :
    EstimateSegmentTime (-10000) ["walk", "bike"] "bike" "" "" = (-50000/21, "bike") ∧
    "walk" ∈ (["walk", "bike"] : List String) ∧
    candidateTotal (-10000) "walk" "bike" "" "" < -50000/21 := by
  decide

/-- Witness for C5 at a concrete call. -/
theorem c5_min_selection_witness :
    (∀ m ∈ (["walk", "bus"] : List String),
      (EstimateSegmentTime 1400 ["walk", "bus"] "" "" "L1").1 ≤
        candidateTotal 1400 m "" "" "L1") ∧
    (["walk", "bus"].find? (fun m => decide (candidateTotal 1400 m "" "" "L1" =
        (EstimateSegmentTime 1400 ["walk", "bus"] "" "" "L1").1)) =
      some (EstimateSegmentTime 1400 ["walk", "bus"] "" "" "L1").2) :=
  (c5_min_selection 1400 ["walk", "bus"] "" "" "L1" (by decide)).2 (by decide)

/-! ### Claims about the pathfinder -/

/-- C1 counterexample: on `cexGraph` with mask {walk,bus}, Dijkstra finds a
path of cost 42600/77 s, yet the all-bus path — valid under the same mask —
costs only 500 s: the single-label-per-node search is not globally optimal
under the transfer-aware cost. -/
theorem c1_counterexample :
    (cexGraph.Dijkstra "A" "C" 9).Found = true ∧
    validPathB cexGraph 9 "A" "C" [edgeABbus, edgeBCbus] = true ∧
    pathCost 9 [edgeABbus, edgeBCbus] "" "" < (cexGraph.Dijkstra "A" "C" 9).EstimatedTime := by
  decide

/-- C1 (amended): when a path is found, the reported total time is the
replay of the transfer-aware segment-time function along the reported
segments — an achievable total, not always the minimum one. -/
theorem c1_time_replays_segments (g : Graph) (s e : String) (mask : Nat)
    (h : (g.Dijkstra s e mask).Found = true) :
    (g.Dijkstra s e mask).EstimatedTime =
      segmentsCost (g.Dijkstra s e mask).Segments "" "" := by
  unfold Graph.Dijkstra at h ⊢
  by_cases h1 : ((g.Nodes s).isNone || (g.Nodes e).isNone) = true
  · simp [h1] at h
  · by_cases h2 : (dijkstraLoop g mask e (totalEdges g + 2) (dijkstraInit g s)).timeCost e =
        FCost.inf
    · simp [h1, h2] at h
    · simp only [h1, h2]
      simp [h1, h2]
      exact reconstruct_replay _ _ _ _ _

/-- Witness for the amended C1 on the concrete bus scenario. -/
theorem c1_time_replays_segments_witness :
    (busGraph.Dijkstra "A" "C" 8).Found = true ∧
    (busGraph.Dijkstra "A" "C" 8).EstimatedTime =
      segmentsCost (busGraph.Dijkstra "A" "C" 8).Segments "" "" :=
  ⟨by decide, c1_time_replays_segments busGraph "A" "C" 8 (by decide)⟩

/-- C9: the three-node bus scenario — two segments, the first paying the
300 s bus wait, the second (same line, same mode) paying none, and the
total equal to 2×(1000/5.5) + 300 seconds. -/
theorem c9_bus_line_scenario :
    (busGraph.Dijkstra "A" "C" ModeBus).Found = true ∧
    (busGraph.Dijkstra "A" "C" ModeBus).Segments.length = 2 ∧
    ((busGraph.Dijkstra "A" "C" ModeBus).Segments.map (fun s => s.Time)) =
      [1000 / SpeedBus + WaitTimeBus, 1000 / SpeedBus] ∧
    (busGraph.Dijkstra "A" "C" ModeBus).EstimatedTime = 2 * (1000 / SpeedBus) + WaitTimeBus := by
  decide

/-- C10 counterexample: a node whose ID is the empty string is found, but
the reported path is empty rather than the singleton of the node's ID,
because the backtracking loop's empty-string sentinel stops immediately. -/
theorem c10_counterexample :
    (emptyIDGraph.Nodes "").isSome = true ∧
    (emptyIDGraph.Dijkstra "" "" 1).Found = true ∧
    (emptyIDGraph.Dijkstra "" "" 1).Path = [] := by
  decide

/-- C10 (amended: the node ID must be non-empty): routing from a node to
itself reports found, the singleton path, no segments and zero totals. -/
theorem c10_self_route (g : Graph) (id : String) (mask : Nat)
    (hid : (g.Nodes id).isSome = true) (hne : id ≠ "") :
    g.Dijkstra id id mask =
      { Path := [id], Segments := [], Distance := 0, EstimatedTime := 0, Found := true } := by
  have hnn : g.Nodes id ≠ none := Option.ne_none_iff_isSome.mpr hid
  obtain ⟨k, hk⟩ : ∃ k, totalEdges g + 2 = k + 1 := ⟨totalEdges g + 1, rfl⟩
  unfold Graph.Dijkstra
  rw [hk]
  simp [hnn, dijkstraLoop, dijkstraInit, popMin, upd, buildPath, reconstructSegments, hne]

/-- Witness for the amended C10 on the concrete bus scenario graph. -/
theorem c10_self_route_witness :
    busGraph.Dijkstra "B" "B" 31 =
      { Path := ["B"], Segments := [], Distance := 0, EstimatedTime := 0, Found := true } :=
  c10_self_route busGraph "B" 31 (by decide) (by decide)

/-- C7: when an endpoint does not resolve, or the end node's cost is still
infinite when the search loop finishes, the result is not-found with every
other field empty or zero. -/
theorem c7_not_found_empty_result (g : Graph) (s e : String) (mask : Nat)
    (h : ((g.Nodes s).isNone || (g.Nodes e).isNone) = true ∨
      (dijkstraLoop g mask e (totalEdges g + 2) (dijkstraInit g s)).timeCost e = FCost.inf) :
    g.Dijkstra s e mask =
      { Path := [], Segments := [], Distance := 0, EstimatedTime := 0, Found := false } := by
  unfold Graph.Dijkstra
  rcases h with h | h
  · rw [if_pos h]
  · by_cases h1 : ((g.Nodes s).isNone || (g.Nodes e).isNone) = true
    · rw [if_pos h1]
    · simp [h1, h]

/-- Witness for C7: an unknown start node on the empty graph. -/
theorem c7_not_found_empty_result_witness :
    NewGraph.Dijkstra "a" "b" 1 =
      { Path := [], Segments := [], Distance := 0, EstimatedTime := 0, Found := false } :=
  c7_not_found_empty_result NewGraph "a" "b" 1 (Or.inl (by decide))

/-- C3 (amended: only the JSON loader adjusts distances): a zero-distance
edge gets the great-circle distance of its endpoints when both resolve, and
keeps distance zero when either endpoint is missing. -/
theorem c3_zero_distance_adjustment (hav : Point → Point → ℚ) (g : Graph) (e : Edge)
    (h0 : e.Dist = 0) :
    (∀ nf nt, g.Nodes e.From = some nf → g.Nodes e.To = some nt →
      adjLookup (processJSONEdge hav g e).AdjList e.From =
        adjLookup g.AdjList e.From ++
          [{ e with
              ModeMask := ParseModes e.Modes,
              Dist := hav { Lat := nf.Lat, Lng := nf.Lng } { Lat := nt.Lat, Lng := nt.Lng } }]) ∧
    ((g.Nodes e.From).isNone ∨ (g.Nodes e.To).isNone →
      adjLookup (processJSONEdge hav g e).AdjList e.From =
        adjLookup g.AdjList e.From ++ [{ e with ModeMask := ParseModes e.Modes }]) := by
  constructor
  · intro nf nt hf ht
    have hd : jsonDist hav g.Nodes e =
        hav { Lat := nf.Lat, Lng := nf.Lng } { Lat := nt.Lat, Lng := nt.Lng } := by
      unfold jsonDist
      rw [if_pos h0, hf, ht]
    have := processJSONEdge_forward hav g e
    rw [this]
    unfold jsonForwardEdge
    rw [hd]
  · intro hmiss
    have hd : jsonDist hav g.Nodes e = e.Dist := by
      unfold jsonDist
      rw [if_pos h0]
      rcases hmiss with hm | hm
      · rw [Option.isNone_iff_eq_none.mp hm]
      · rw [Option.isNone_iff_eq_none.mp hm]
        cases g.Nodes e.From <;> rfl
    have := processJSONEdge_forward hav g e
    rw [this]
    unfold jsonForwardEdge
    rw [hd, h0]

/-- C3 counterexample: the DB loader performs no distance computation — a
zero-distance edge between resolvable, distinct endpoints keeps distance 0
in the constructed graph, not the (nonzero) great-circle distance. -/
theorem c3_counterexample :
    (adjLookup (LoadFromDBRecords [nodeA, nodeB] [edgeABzero]).AdjList "A").map
      (fun x => x.Dist) = [0] ∧
    (LoadFromDBRecords [nodeA, nodeB] [edgeABzero]).Nodes "A" = some nodeA ∧
    (LoadFromDBRecords [nodeA, nodeB] [edgeABzero]).Nodes "B" = some nodeB := by
  decide

/-- Witness for C3 at a concrete loader call. -/
theorem c3_zero_distance_adjustment_witness :
    adjLookup (processJSONEdge (fun _ _ => 1234) (loadNodes NewGraph [nodeA, nodeB])
        edgeABzero).AdjList edgeABzero.From =
      adjLookup (loadNodes NewGraph [nodeA, nodeB]).AdjList edgeABzero.From ++
        [{ edgeABzero with
            ModeMask := ParseModes edgeABzero.Modes,
            Dist := (fun (_ _ : Point) => (1234 : ℚ)) { Lat := nodeA.Lat, Lng := nodeA.Lng }
              { Lat := nodeB.Lat, Lng := nodeB.Lng } }] :=
  (c3_zero_distance_adjustment (fun _ _ => 1234) (loadNodes NewGraph [nodeA, nodeB])
    edgeABzero (by decide)).1 nodeA nodeB (by decide) (by decide)

/-- C2 counterexample: the DB loader has no duplicate check — with B→A
already loaded, processing A→B synthesizes a second B→A edge into B's
adjacency list. -/
theorem c2_counterexample :
    ((adjLookup (LoadFromDBRecords [nodeA, nodeB] [edgeBAdb, edgeABdb]).AdjList "B").filter
      (fun x => x.From == "B" && x.To == "A")).length = 2 := by
  decide

/-- Witness for the amended C2 at a concrete loader step. -/
theorem c2_json_no_duplicate_reverse_witness :
    adjLookup (processJSONEdge (fun _ _ => 0) revGraph edgeABdb).AdjList edgeABdb.To =
      adjLookup revGraph.AdjList edgeABdb.To :=
  c2_json_no_duplicate_reverse (fun _ _ => 0) revGraph edgeABdb (by decide)
    ⟨edgeBAdb, by decide, by decide, by decide⟩

/-- C8: when the parsed mask meets {walk,bike,car} and no reverse edge is
present, the JSON loader appends exactly `jsonReverseEdge` — swapped
endpoints, the forward distance, the {walk,bike,car} mode subset as names
and (equivalently) as bitmask, the marked description; when the mask is
bus/subway-only, the target's adjacency list is untouched. -/
theorem c8_reverse_edge_content (hav : Point → Point → ℚ) (g : Graph) (e : Edge)
    (hne : e.From ≠ e.To) :
    (ParseModes e.Modes &&& bidirectionalMask ≠ 0 →
      (∀ x ∈ adjLookup g.AdjList e.To, ¬(x.From = e.To ∧ x.To = e.From)) →
      adjLookup (processJSONEdge hav g e).AdjList e.To =
        adjLookup g.AdjList e.To ++ [jsonReverseEdge hav g e]) ∧
    (ParseModes e.Modes &&& bidirectionalMask = 0 →
      adjLookup (processJSONEdge hav g e).AdjList e.To = adjLookup g.AdjList e.To) ∧
    ParseModes (getBidirectionalModes e.Modes) = ParseModes e.Modes &&& bidirectionalMask := by
  refine ⟨?_, ?_, parse_bidirectional e.Modes⟩
  · intro h7 hno
    have hanyF : ((adjLookup g.AdjList e.To).any
        (fun ex => ex.From == e.To && ex.To == e.From)) = false := by
      rw [List.any_eq_false]
      intro x hx
      have hn := hno x hx
      simp only [Bool.and_eq_true, beq_iff_eq]
      exact fun hc => hn hc
    simp only [processJSONEdge, jsonForwardEdge_From, jsonForwardEdge_To,
      jsonForwardEdge_ModeMask]
    simp [h7, bne_iff_ne, adjLookup_adjAppend_ne _ _ _ _ (Ne.symm hne), hanyF,
      adjLookup_adjAppend_self]
  · intro h7
    simp only [processJSONEdge, jsonForwardEdge_From, jsonForwardEdge_To,
      jsonForwardEdge_ModeMask]
    simp [h7, adjLookup_adjAppend_ne _ _ _ _ (Ne.symm hne)]

/-- Witness for C8 at a concrete loader step on the empty graph. -/
theorem c8_reverse_edge_content_witness :
    adjLookup (processJSONEdge (fun _ _ => 0) NewGraph edgeABwalk).AdjList edgeABwalk.To =
      adjLookup NewGraph.AdjList edgeABwalk.To ++
        [jsonReverseEdge (fun _ _ => 0) NewGraph edgeABwalk] :=
  (c8_reverse_edge_content (fun _ _ => 0) NewGraph edgeABwalk (by decide)).1 (by decide)
    (by decide)

end VVMaps
